import Mathlib

/-!
Verification development for the ai-kanban task-routing system.

The Python sources under `src/ai_kanban` are shallowly embedded: pure
functions become Lean functions, stateful operations are explicit state
passing, fallible operations return `Except`.  Python `str` is `String`,
Python `list` is `List`, Python `dict` keyed by strings is an association
list `List (String × _)` (insertion ordered, as Python dicts are), and
raised exceptions are `Except.error` values.  Wall-clock timing fields
(`execution_time`, `last_activity`) are not modelled: no claim depends on
them.  Python's `datetime` is modelled by its canonical ISO-8601 string
(`datetime.fromisoformat` is exact inverse of `datetime.isoformat` on the
strings `isoformat` produces, which is the only way the repository uses the
pair), and `uuid.UUID` values by their canonical string form.
-/

namespace AIKanban

/-- Python `s.lower()` (over the characters of the string). -/
def pyLower (s : String) : String :=
  String.mk (s.toList.map Char.toLower)

/-- Python `s.strip()`: remove leading and trailing whitespace. -/
def pyStrip (s : String) : String :=
  String.mk
    (((s.toList.dropWhile Char.isWhitespace).reverse.dropWhile
        Char.isWhitespace).reverse)

/-- One pass of Python `s.replace(old, new)` over a character list:
replace every non-overlapping occurrence of `old`, left to right
(`old` is nonempty at the call sites). -/
def listReplace (old new : List Char) : List Char → List Char
  | [] => []
  | c :: rest =>
    if old ≠ [] ∧ old.isPrefixOf (c :: rest) then
      new ++ listReplace old new ((c :: rest).drop old.length)
    else c :: listReplace old new rest
termination_by l => l.length
decreasing_by
  · rename_i h
    simp only [List.length_drop, List.length_cons]
    have : 0 < old.length := List.length_pos.mpr h.1
    omega
  · simp

/-- Python `s.replace(old, new)`. -/
def pyReplace (s old new : String) : String :=
  String.mk (listReplace old.toList new.toList s.toList)

/-- `listInfix n l` is true iff `n` occurs as a contiguous sublist of `l`. -/
def listInfix (n : List Char) : List Char → Bool
  | [] => n.isPrefixOf ([] : List Char)
  | c :: rest => n.isPrefixOf (c :: rest) || listInfix n rest

/-- Python `needle in haystack` for strings: substring containment. -/
def strIn (needle haystack : String) : Bool :=
  listInfix needle.toList haystack.toList

/-- Python `str(bool)`: `True` / `False`. -/
def pyBoolStr (b : Bool) : String :=
  if b then "True" else "False"

/-! ### `TaskStatus` (src/ai_kanban/domain/events.py) -/

/-- `TaskStatus` enumeration matching Notion values. -/
inductive TaskStatus
  | toDo
  | inProgress
  | done
  | cancelled
deriving DecidableEq, Repr

/-- `TaskStatus.value`: the string value of each enum member. -/
def TaskStatus.value : TaskStatus → String
  | .toDo => "To Do"
  | .inProgress => "In Progress"
  | .done => "Done"
  | .cancelled => "Cancelled"

/-- `TaskStatus(s)`: the enum constructor; raises `ValueError` (here `none`)
for a string that is not the `value` of a member. -/
def TaskStatus.parse : String → Option TaskStatus
  | "To Do" => some .toDo
  | "In Progress" => some .inProgress
  | "Done" => some .done
  | "Cancelled" => some .cancelled
  | _ => none

/-! ### Datetime and UUID models -/

/-- A Python `datetime`, modelled by its canonical ISO-8601 string, the
only observation the repository makes of it. -/
structure Datetime where
  iso : String
deriving DecidableEq, Repr

/-- `datetime.isoformat()`. -/
def Datetime.isoformat (d : Datetime) : String := d.iso

/-- `datetime.fromisoformat(s)` as used by `NotionTask.with_content`:
exact inverse of `isoformat` (the repository only ever applies it there to
strings produced by `isoformat`). -/
def Datetime.fromisoformat (s : String) : Datetime := ⟨s⟩

/-! ### `NotionTask` (src/ai_kanban/domain/events.py) -/

/-- The `NotionTask` frozen dataclass.  `event_id` is modelled by its
canonical string, `metadata` as a string-keyed association list of strings
(the repository never reads metadata values). -/
structure NotionTask where
  notionId : String
  title : String
  status : TaskStatus
  createdBy : String
  description : String := ""
  content : String := ""
  aiEmployee : Option String := none
  assignedTo : Option String := none
  githubUrl : Option String := none
  notionUrl : String := ""
  lastEditedTime : Option Datetime := none
  createdTime : Option Datetime := none
  eventId : String := ""
  timestamp : Datetime := ⟨""⟩
  metadata : List (String × String) := []
deriving DecidableEq, Repr

namespace NotionTask

/-- `NotionTask.has_ai_employee_assigned`. -/
def hasAiEmployeeAssigned (t : NotionTask) : Bool :=
  match t.aiEmployee with
  | none => false
  | some s => pyStrip s ≠ ""

/-- `NotionTask.is_assigned_to_employee`. -/
def isAssignedToEmployee (t : NotionTask) (employeeName : String) : Bool :=
  if ¬ t.hasAiEmployeeAssigned then false
  else pyStrip (pyLower (t.aiEmployee.getD "")) == pyStrip (pyLower employeeName)

/-- `NotionTask.can_be_processed`. -/
def canBeProcessed (t : NotionTask) : Bool :=
  (t.status == TaskStatus.toDo || t.status == TaskStatus.inProgress)
    && t.hasAiEmployeeAssigned

end NotionTask

/-! ### Event checks (src/ai_kanban/domain/event_checks.py)

Every concrete `matches` implementation observes the employee only through
`employee.name`, so the embedding passes the name.  The `isinstance(event,
NotionTask)` guards are vacuous here: all call sites pass a task.
`CompositeCheck.__init__` upper-cases the operator and raises on anything
but AND / OR, so a constructed check carries one of the two operators,
modelled as `CheckOp`. -/

inductive CheckOp
  | and
  | or
deriving DecidableEq, Repr

/-- The closed set of `EventCheck` subclasses. -/
inductive EventCheck
  | assignment
  | keyword (keywords : List String) (checkFields : List String)
  | statusCheck (statuses : List TaskStatus)
  | composite (checks : List EventCheck) (op : CheckOp)
  | contentLength (minLength : Nat)

/-- `KeywordCheck.__init__` lower-cases the keywords and defaults the
checked fields to title, description, content. -/
def mkKeywordCheck (keywords : List String) (checkFields : Option (List String)) : EventCheck :=
  .keyword (keywords.map pyLower)
    (checkFields.getD ["title", "description", "content"])

/-- `StatusCheck.__init__` parses each status string, silently dropping
entries that do not parse. -/
def mkStatusCheck (statuses : List String) : EventCheck :=
  .statusCheck (statuses.filterMap TaskStatus.parse)

/-- `getattr(event, field)` for the string-valued task fields named by
`KeywordCheck.check_fields` (with `or ""` collapsing `None`); `none` means
`hasattr` is false and the field is skipped. -/
def NotionTask.getStrField (t : NotionTask) : String → Option String
  | "title" => some t.title
  | "description" => some t.description
  | "content" => some t.content
  | "ai_employee" => some (t.aiEmployee.getD "")
  | "assigned_to" => some (t.assignedTo.getD "")
  | "notion_url" => some t.notionUrl
  | "created_by" => some t.createdBy
  | _ => none

mutual

/-- `EventCheck.matches(event, employee)`. -/
def EventCheck.matches : EventCheck → NotionTask → String → Bool
  | .assignment, t, employeeName => t.isAssignedToEmployee employeeName
  | .keyword keywords checkFields, t, _ =>
      let textToCheck := checkFields.foldl
        (fun acc f => match t.getStrField f with
          | some v => acc ++ " " ++ v
          | none => acc) ""
      let textToCheck := pyLower textToCheck
      keywords.any (fun kw => strIn kw textToCheck)
  | .statusCheck statuses, t, _ => statuses.contains t.status
  | .composite checks op, t, employeeName =>
      if checks.isEmpty then false
      else match op with
        | .and => EventCheck.allMatch checks t employeeName
        | .or => EventCheck.anyMatch checks t employeeName
  | .contentLength minLength, t, _ =>
      (pyStrip (t.title ++ " " ++ t.description ++ " " ++ t.content)).length ≥ minLength

/-- `all(check.matches(event, employee) for check in checks)`. -/
def EventCheck.allMatch : List EventCheck → NotionTask → String → Bool
  | [], _, _ => true
  | c :: cs, t, n => c.matches t n && EventCheck.allMatch cs t n

/-- `any(check.matches(event, employee) for check in checks)`. -/
def EventCheck.anyMatch : List EventCheck → NotionTask → String → Bool
  | [], _, _ => false
  | c :: cs, t, n => c.matches t n || EventCheck.anyMatch cs t n

end

/-! ### Artificial employee (src/ai_kanban/domain/artificial_employee.py) -/

/-- `EmployeeReaction`: a (check, workflow-id, priority) rule. -/
structure EmployeeReaction where
  eventCheck : EventCheck
  workflowType : String
  priority : Int := 0

/-- An `EmployeeWorkflowGraph` object as registered on an employee,
observed only through `workflow_type` (execution is modelled separately,
see `WorkflowRun`). -/
structure Workflow where
  workflowType : String
deriving DecidableEq, Repr

/-- Domain events produced by employee operations
(src/ai_kanban/domain/events.py). -/
inductive DomainEvent
  | taskProcessed (employeeId taskId resultSummary : String)
  | taskProcessingFailed (employeeId taskId errorMessage : String)
  | employeeActivated (employeeId : String)
  | employeeDeactivated (employeeId : String)
deriving DecidableEq, Repr

/-- `TaskProcessingResult` (execution_time omitted: wall-clock time is not
modelled). -/
structure TaskProcessingResult where
  taskId : String
  employeeId : String
  workflowType : String
  success : Bool
  results : List String
  errors : List String
  modelUsed : Option String := none
deriving DecidableEq, Repr

/-- The mutable state of an `ArtificialEmployee` aggregate
(last_activity omitted: wall-clock time is not modelled). -/
structure Employee where
  employeeId : String
  name : String
  personaSystemPrompt : String := ""
  isActive : Bool := true
  reactions : List EmployeeReaction := []
  workflows : List (String × Workflow) := []
  domainEvents : List DomainEvent := []
  tasksProcessed : Nat := 0
  successCount : Nat := 0

namespace Employee

/-- The sort relation used by `add_reaction`: priority descending. -/
def priorityGe (a b : EmployeeReaction) : Prop := b.priority ≤ a.priority

instance : DecidableRel priorityGe := fun a b => by
  unfold priorityGe; infer_instance

instance : IsTotal EmployeeReaction priorityGe :=
  ⟨fun a b => le_total b.priority a.priority⟩

instance : IsTrans EmployeeReaction priorityGe :=
  ⟨fun _ _ _ h h' => le_trans h' h⟩

/-- `ArtificialEmployee.add_reaction`: append, then re-sort by priority
descending.  Python's `list.sort` is stable (also with `reverse=True`);
any stable sort computes the same list, so `List.insertionSort` (stable)
models it. -/
def addReaction (e : Employee) (check : EventCheck) (workflowType : String)
    (priority : Int) : Employee :=
  let r : EmployeeReaction :=
    { eventCheck := check, workflowType := workflowType, priority := priority }
  { e with reactions := List.insertionSort priorityGe (e.reactions ++ [r]) }

/-- `ArtificialEmployee.add_workflow`: register/overwrite under the id.
The key is fresh or replaced in place, as for a Python dict. -/
def addWorkflow (e : Employee) (workflowType : String) (w : Workflow) : Employee :=
  { e with workflows :=
      if (e.workflows.lookup workflowType).isSome then
        e.workflows.map (fun p => if p.1 == workflowType then (p.1, w) else p)
      else e.workflows ++ [(workflowType, w)] }

/-- `ArtificialEmployee.can_handle_task_type`. -/
def canHandleTaskType (e : Employee) (t : NotionTask) : Bool :=
  if ¬ e.isActive then false
  else if ¬ t.isAssignedToEmployee e.name then false
  else e.reactions.any (fun r => r.eventCheck.matches t e.name)

/-- `ArtificialEmployee.get_applicable_workflow`: walk the (sorted) rule
list; on a matching rule return its workflow if registered, otherwise log
and keep scanning. -/
def getApplicableWorkflow (e : Employee) (t : NotionTask) : Option Workflow :=
  go e.reactions
where
  go : List EmployeeReaction → Option Workflow
    | [] => none
    | r :: rest =>
      if r.eventCheck.matches t e.name then
        match e.workflows.lookup r.workflowType with
        | some w => some w
        | none => go rest
      else go rest

/-- The outcome of `await workflow.execute(task, self)` as observed by
`process_task`: either a returned result or a raised exception text. -/
abbrev ExecOutcome := Except String TaskProcessingResult

/-- `ArtificialEmployee.process_task`.  Raises (`Except.error`) when the
task is not assigned to this employee, when `can_handle_task_type` is
false, or when no workflow resolves; otherwise returns the result and the
updated employee state.  The workflow execution outcome is passed in as
`outcome`. -/
def processTask (e : Employee) (t : NotionTask) (outcome : ExecOutcome) :
    Except String (TaskProcessingResult × Employee) :=
  if ¬ t.isAssignedToEmployee e.name then
    .error ("Task " ++ t.notionId ++ " is not assigned to " ++ e.name)
  else if ¬ e.canHandleTaskType t then
    .error ("Employee " ++ e.name ++ " cannot handle task type for " ++ t.notionId)
  else
    match e.getApplicableWorkflow t with
    | none => .error ("No workflow available for task " ++ t.notionId)
    | some wf =>
      match outcome with
      | .ok result =>
        let e := { e with
          tasksProcessed := e.tasksProcessed + 1,
          successCount := e.successCount + (if result.success then 1 else 0),
          domainEvents := e.domainEvents ++
            [.taskProcessed e.employeeId t.notionId
              ("Processed with " ++ wf.workflowType ++ ": " ++ pyBoolStr result.success)] }
        .ok (result, e)
      | .error errorMsg =>
        let e := { e with
          tasksProcessed := e.tasksProcessed + 1,
          domainEvents := e.domainEvents ++
            [.taskProcessingFailed e.employeeId t.notionId errorMsg] }
        .ok ({ taskId := t.notionId, employeeId := e.employeeId,
               workflowType := wf.workflowType, success := false,
               results := [], errors := [errorMsg] }, e)

end Employee

/-! ### Employee registry (src/ai_kanban/domain/artificial_employee.py) -/

/-- Exceptions raised by the embedded Python code. -/
inductive PyErr
  | valueError (msg : String)
  | typeError (msg : String)
  | attributeError (name : String)

/-- `EmployeeRegistry`: two Python dicts, keyed by id and by lower-cased
name, modelled as insertion-ordered association lists. -/
structure Registry where
  byId : List (String × Employee) := []
  byName : List (String × Employee) := []

namespace Registry

/-- Remove the (unique) entry with the given key, as Python `del d[k]`. -/
def eraseKey (l : List (String × Employee)) (k : String) : List (String × Employee) :=
  l.eraseP (fun p => p.1 == k)

/-- `EmployeeRegistry.register_employee`: raises on duplicate id or
duplicate lower-cased name, otherwise inserts into both dicts. -/
def registerEmployee (r : Registry) (e : Employee) : Except PyErr Registry :=
  if (r.byId.lookup e.employeeId).isSome then
    .error (.valueError ("Employee with ID " ++ e.employeeId ++ " already registered"))
  else if (r.byName.lookup (pyLower e.name)).isSome then
    .error (.valueError ("Employee with name " ++ e.name ++ " already registered"))
  else
    .ok { byId := r.byId ++ [(e.employeeId, e)],
          byName := r.byName ++ [(pyLower e.name, e)] }

/-- `EmployeeRegistry.get_employee`. -/
def getEmployee (r : Registry) (employeeId : String) : Option Employee :=
  r.byId.lookup employeeId

/-- `EmployeeRegistry.get_employee_by_name` (case-insensitive). -/
def getEmployeeByName (r : Registry) (name : String) : Option Employee :=
  r.byName.lookup (pyLower name)

/-- `EmployeeRegistry.remove_employee`: looks up by id; on a hit deletes
the entry from both dicts and returns true, otherwise returns false. -/
def removeEmployee (r : Registry) (employeeId : String) : Bool × Registry :=
  match r.byId.lookup employeeId with
  | none => (false, r)
  | some e =>
    (true, { byId := eraseKey r.byId employeeId,
             byName := eraseKey r.byName (pyLower e.name) })

/-- `EmployeeRegistry.get_active_employees`. -/
def getActiveEmployees (r : Registry) : List Employee :=
  (r.byId.map Prod.snd).filter (fun e => e.isActive)

/-- A register or remove operation on the registry. -/
inductive RegOp
  | register (e : Employee)
  | remove (employeeId : String)

/-- Apply one operation; a raised error propagates to the caller and the
registry state is untouched (`register_employee` raises before mutating). -/
def applyOp (r : Registry) : RegOp → Registry
  | .register e =>
    match r.registerEmployee e with
    | .ok r' => r'
    | .error _ => r
  | .remove employeeId => (r.removeEmployee employeeId).2

/-- The registry reached from empty by a sequence of operations. -/
def applyOps (ops : List RegOp) : Registry :=
  ops.foldl applyOp {}

end Registry

/-! ### Domain services (src/ai_kanban/domain/services.py) -/

namespace TaskAssignmentService

/-- `TaskAssignmentService.find_assigned_employee`. -/
def findAssignedEmployee (reg : Registry) (t : NotionTask) : Option Employee :=
  if ¬ t.hasAiEmployeeAssigned then none
  else reg.getEmployeeByName (t.aiEmployee.getD "")

/-- `TaskAssignmentService.can_employee_handle_task`. -/
def canEmployeeHandleTask (e : Employee) (t : NotionTask) : Bool :=
  if ¬ t.isAssignedToEmployee e.name then false
  else e.canHandleTaskType t

/-- `TaskAssignmentService._analyze_capability_failure`.  After the
inactivity check it iterates `employee.reactions`; `ArtificialEmployee`
defines only the private `_reactions` attribute and no `reactions`
property, so the attribute access raises `AttributeError` on every call
(artificial_employee.py:55, services.py:81). -/
def analyzeCapabilityFailure (e : Employee) (_t : NotionTask) : Except PyErr String :=
  let _failureReasons := if ¬ e.isActive then ["Employee is inactive"] else []
  .error (.attributeError "reactions")

/-- `TaskAssignmentService.validate_assignment`.  The diagnostic branches
are transcribed including their effectful attribute accesses; log calls
themselves are pure no-ops. -/
def validateAssignment (reg : Registry) (t : NotionTask) : Except PyErr Bool :=
  if ¬ t.canBeProcessed then
    -- warning log built from pure reads only
    .ok false
  else
    match findAssignedEmployee reg t with
    | none =>
      -- warning log built from pure reads only
      .ok false
    | some e =>
      let canHandle := canEmployeeHandleTask e t
      if ¬ canHandle then
        -- the warning log evaluates get_available_workflow_types (pure)
        -- and _analyze_capability_failure (raises, see above)
        match analyzeCapabilityFailure e t with
        | .error err => .error err
        | .ok _ => .ok canHandle
      else .ok canHandle

end TaskAssignmentService

namespace TaskStatusService

/-- A call to the external status sink:
`task_repository.update_task_status(task_id, new_status)`. -/
structure SinkCall where
  taskId : String
  newStatus : String
deriving DecidableEq, Repr

/-- `TaskStatusService._normalize_status` (the task's status is the enum,
so normalization takes its `value`). -/
def normalizeStatus (s : TaskStatus) : String := s.value

/-- `TaskStatusService.transition_to_in_progress`.  The sink is a pure
function from the call to its boolean result; along with the result we
return the list of sink calls made. -/
def transitionToInProgress (t : NotionTask) (sink : SinkCall → Bool) :
    Bool × List SinkCall :=
  let currentStatus := normalizeStatus t.status
  if currentStatus == TaskStatus.inProgress.value then (true, [])
  else if ¬ (currentStatus == TaskStatus.toDo.value) then (false, [])
  else
    let call : SinkCall := ⟨t.notionId, TaskStatus.inProgress.value⟩
    (sink call, [call])

/-- `TaskStatusService.transition_to_done`. -/
def transitionToDone (t : NotionTask) (sink : SinkCall → Bool) :
    Bool × List SinkCall :=
  let currentStatus := normalizeStatus t.status
  if currentStatus == TaskStatus.done.value then (true, [])
  else if ¬ (currentStatus == TaskStatus.inProgress.value) then (false, [])
  else
    let call : SinkCall := ⟨t.notionId, TaskStatus.done.value⟩
    (sink call, [call])

/-- `TaskStatusService.revert_to_todo`: calls the sink unconditionally. -/
def revertToTodo (t : NotionTask) (sink : SinkCall → Bool) :
    Bool × List SinkCall :=
  let call : SinkCall := ⟨t.notionId, TaskStatus.toDo.value⟩
  (sink call, [call])

end TaskStatusService

/-! ### Dataclass construction, serialization
(src/ai_kanban/domain/events.py) -/

namespace NotionTask

/-- The generated `NotionTask.__init__` followed by `__post_init__`:
raises `ValueError` for an empty `notion_id` or a whitespace-only title. -/
def mkChecked (t : NotionTask) : Except PyErr NotionTask :=
  if t.notionId == "" then .error (.valueError "NotionTask must have notion_id")
  else if pyStrip t.title == "" then
    .error (.valueError "NotionTask must have non-empty title")
  else .ok t

/-- The dictionary produced by `NotionTask.to_dict`, with the serialized
field types: enum → its string value, datetimes → ISO strings, UUID → its
string. -/
structure TaskDict where
  eventId : String
  timestamp : String
  notionId : String
  title : String
  status : String
  description : String
  content : String
  aiEmployee : Option String
  assignedTo : Option String
  createdBy : String
  githubUrl : Option String
  notionUrl : String
  lastEditedTime : Option String
  createdTime : Option String
  metadata : List (String × String)
deriving DecidableEq, Repr

/-- `NotionTask.to_dict`. -/
def toDict (t : NotionTask) : TaskDict :=
  { eventId := t.eventId
    timestamp := t.timestamp.isoformat
    notionId := t.notionId
    title := t.title
    status := t.status.value
    description := t.description
    content := t.content
    aiEmployee := t.aiEmployee
    assignedTo := t.assignedTo
    createdBy := t.createdBy
    githubUrl := t.githubUrl
    notionUrl := t.notionUrl
    lastEditedTime := t.lastEditedTime.map Datetime.isoformat
    createdTime := t.createdTime.map Datetime.isoformat
    metadata := t.metadata }

/-- `NotionTask.with_content`: serialize to the dict, overwrite `content`,
parse the timestamp strings back to datetimes and the status string back
to the enum (`TaskStatus(...)` raises `ValueError` on an unknown string),
drop keys that are not constructor fields (every `to_dict` key is one),
and construct a new `NotionTask`. -/
def withContent (t : NotionTask) (newContent : String) : Except PyErr NotionTask :=
  let d := t.toDict
  let d := { d with content := newContent }
  let timestamp := Datetime.fromisoformat d.timestamp
  let lastEditedTime := d.lastEditedTime.map Datetime.fromisoformat
  let createdTime := d.createdTime.map Datetime.fromisoformat
  match TaskStatus.parse d.status with
  | none => .error (.valueError ("'" ++ d.status ++ "' is not a valid TaskStatus"))
  | some status =>
    mkChecked
      { notionId := d.notionId
        title := d.title
        status := status
        createdBy := d.createdBy
        description := d.description
        content := d.content
        aiEmployee := d.aiEmployee
        assignedTo := d.assignedTo
        githubUrl := d.githubUrl
        notionUrl := d.notionUrl
        lastEditedTime := lastEditedTime
        createdTime := createdTime
        eventId := d.eventId
        timestamp := timestamp
        metadata := d.metadata }

end NotionTask

/-! ### Notion mapper (src/ai_kanban/infrastructure/notion_mapper.py) -/

/-- JSON values as delivered in a Notion message payload. -/
inductive Json
  | str (s : String)
  | jbool (b : Bool)
  | num (n : Int)
  | null
  | arr (items : List Json)
  | obj (fields : List (String × Json))

namespace Json

/-- `d.get(key)` on an object; `none` for a missing key or a non-object. -/
def get : Json → String → Option Json
  | .obj fields, key => fields.lookup key
  | _, _ => none

/-- `d.get(key, {})`. -/
def getObj (j : Json) (key : String) : Json :=
  (j.get key).getD (.obj [])

/-- `d.get(key, "")` coerced to a string (non-strings give the default,
matching how the mapper only reads string-typed values). -/
def getStr (j : Json) (key : String) : String :=
  match j.get key with
  | some (.str s) => s
  | _ => ""

/-- `d.get(key)` as an optional string. -/
def getStrOpt (j : Json) (key : String) : Option String :=
  match j.get key with
  | some (.str s) => some s
  | _ => none

/-- `d.get(key, [])` as a list. -/
def getArr (j : Json) (key : String) : List Json :=
  match j.get key with
  | some (.arr items) => items
  | _ => []

/-- Python truthiness of the value under a key: false for a missing key,
`None`, `""`, `[]`, `{}`, `0`, `False`. -/
def truthy : Json → Bool
  | .str s => s ≠ ""
  | .jbool b => b
  | .num n => n ≠ 0
  | .null => false
  | .arr items => ¬ items.isEmpty
  | .obj fields => ¬ fields.isEmpty

end Json

namespace NotionTaskMapper

/-- `_extract_title`: first of the "Title"/"Task"/"Name" properties that is
title-typed with a nonempty title list; its first fragment's text content. -/
def extractTitle (properties : Json) : String :=
  go ["Title", "Task", "Name"]
where
  go : List String → String
    | [] => "Untitled Task"
    | propName :: rest =>
      let titleProp := properties.getObj propName
      if titleProp.getStr "type" == "title" then
        match titleProp.getArr "title" with
        | [] => go rest
        | first :: _ => (first.getObj "text").getStr "content"
      else go rest

/-- `_extract_status`: reads a select- or status-typed "Status" property
and parses it with `TaskStatus(...)`; an unrecognized name logs a warning
and defaults to `TO_DO`. -/
def extractStatus (properties : Json) : TaskStatus :=
  let statusProp := properties.getObj "Status"
  let statusType := statusProp.getStr "type"
  let statusName :=
    if statusType == "select" then
      match statusProp.get "select" with
      | some sel => if sel.truthy then sel.getStr "name" else ""
      | none => ""
    else if statusType == "status" then
      match statusProp.get "status" with
      | some st => if st.truthy then st.getStr "name" else ""
      | none => ""
    else ""
  match TaskStatus.parse statusName with
  | some s => s
  | none => .toDo

/-- `_extract_rich_text`. -/
def extractRichText (properties : Json) (propName : String) : String :=
  let prop := properties.getObj propName
  if prop.getStr "type" == "rich_text" then
    (prop.getArr "rich_text").foldl
      (fun acc item => acc ++ (item.getObj "text").getStr "content") ""
  else ""

/-- `_extract_text_property`. -/
def extractTextProperty (properties : Json) (propName : String) : Option String :=
  let prop := properties.getObj propName
  let propType := prop.getStr "type"
  if propType == "rich_text" then
    let content := (prop.getArr "rich_text").foldl
      (fun acc item => acc ++ (item.getObj "text").getStr "content") ""
    if pyStrip content ≠ "" then some content else none
  else if propType == "select" then
    match prop.get "select" with
    | some sel => if sel.truthy then sel.getStrOpt "name" else none
    | none => none
  else if propType == "title" then
    match prop.getArr "title" with
    | [] => none
    | first :: _ => some ((first.getObj "text").getStr "content")
  else none

/-- `_extract_person_property`: the first person's name (falling back to
its id, then "Unknown"). -/
def extractPersonProperty (properties : Json) (propName : String) : Option String :=
  let prop := properties.getObj propName
  if prop.getStr "type" == "people" then
    match prop.getArr "people" with
    | [] => none
    | person :: _ =>
      match person.getStrOpt "name" with
      | some n => some n
      | none => some ((person.getStrOpt "id").getD "Unknown")
  else none

/-- `_extract_url_property`. -/
def extractUrlProperty (properties : Json) (propName : String) : Option String :=
  let prop := properties.getObj propName
  if prop.getStr "type" == "url" then prop.getStrOpt "url"
  else none

/-- `_extract_checkbox_property`. -/
def extractCheckboxProperty (properties : Json) (propName : String) : Bool :=
  let prop := properties.getObj propName
  if prop.getStr "type" == "checkbox" then
    match prop.get "checkbox" with
    | some (.jbool b) => b
    | _ => false
  else false

/-- `_parse_datetime`: `None` for a missing value, otherwise
`datetime.fromisoformat` after replacing a `Z` suffix (a parse failure
would give `None`; the datetime model keeps the normalized string). -/
def parseDatetimeProp (dtString : Option String) : Option Datetime :=
  match dtString with
  | none => none
  | some s =>
    if s == "" then none
    else some (Datetime.fromisoformat (pyReplace s "Z" "+00:00"))

/-- The keyword arguments `map_to_domain` computes for the `NotionTask`
constructor call, including `ai_processed`. -/
structure MapperKwargs where
  notionId : String
  title : String
  status : TaskStatus
  description : String
  content : String
  aiEmployee : Option String
  assignedTo : Option String
  createdBy : String
  githubUrl : Option String
  notionUrl : String
  lastEditedTime : Option Datetime
  createdTime : Option Datetime
  aiProcessed : Bool
deriving Repr

/-- The extraction phase of `NotionTaskMapper.map_to_domain`. -/
def mapToDomainKwargs (notionData : Json) : MapperKwargs :=
  let properties := notionData.getObj "properties"
  { notionId := notionData.getStr "id"
    notionUrl := notionData.getStr "url"
    createdTime := parseDatetimeProp (notionData.getStrOpt "created_time")
    lastEditedTime := parseDatetimeProp (notionData.getStrOpt "last_edited_time")
    title := extractTitle properties
    status := extractStatus properties
    description := extractRichText properties "Description"
    aiEmployee := extractTextProperty properties "AI Employee"
    assignedTo := extractPersonProperty properties "assign"
    createdBy := (extractPersonProperty properties "created by").getD "Unknown"
    githubUrl := extractUrlProperty properties "Github"
    content := ""  -- _extract_page_content returns ""
    aiProcessed := extractCheckboxProperty properties "ai processed" }

/-- `NotionTaskMapper.map_to_domain`: after the extraction phase it calls
`NotionTask(..., ai_processed=ai_processed)`.  The `NotionTask` dataclass
(domain/events.py:28-51) declares no `ai_processed` field, so the
generated constructor rejects the keyword and the call raises `TypeError`
for every payload, before `__post_init__` runs. -/
def mapToDomain (notionData : Json) : Except PyErr NotionTask :=
  let _kwargs := mapToDomainKwargs notionData
  .error (.typeError
    "NotionTask.__init__() got an unexpected keyword argument 'ai_processed'")

end NotionTaskMapper

/-! ### Workflow engine (src/ai_kanban/workflows/employee_workflow.py) -/

namespace WorkflowRun

/-- The graph state observed by `execute` after `ainvoke` returns
(`WorkflowState` restricted to the fields `execute` reads). -/
structure GraphFinal where
  results : List String
  errors : List String
  finalResponse : String
deriving DecidableEq, Repr

/-- The response `execute` derives: the state's `final_response`, falling
back to the last result when it is empty and results exist. -/
def derivedResponse (fs : GraphFinal) : String :=
  if fs.finalResponse ≠ "" then fs.finalResponse
  else if fs.results ≠ [] then fs.results.getLastD ""
  else ""

/-- `EmployeeWorkflowGraph.execute` after `graph.ainvoke` resolves:
on a returned final state it derives the response and
`success = (no errors) and (response nonempty)`; on a raised exception it
catches it and builds a failed result whose only error is the exception
text.  It always returns a `TaskProcessingResult`, never re-raising
(execution_time omitted: wall-clock time is not modelled). -/
def executeResult (taskId employeeId workflowType : String)
    (outcome : Except String GraphFinal) : TaskProcessingResult :=
  match outcome with
  | .ok fs =>
    let finalResponse := derivedResponse fs
    { taskId := taskId
      employeeId := employeeId
      workflowType := workflowType
      success := fs.errors.isEmpty && finalResponse != ""
      results := if finalResponse != "" then [finalResponse] else []
      errors := fs.errors
      modelUsed := some "claude-3-5-sonnet-20241022" }
  | .error e =>
    { taskId := taskId
      employeeId := employeeId
      workflowType := workflowType
      success := false
      results := []
      errors := [e]
      modelUsed := some "claude-3-5-sonnet-20241022" }

end WorkflowRun

namespace SpecWorkflow

/-!
The "specification" workflow graph:

  gather_context → execute_llm_action
  execute_llm_action --_should_retry_action--> retry: gather_context
                                             | error: handle_error
                                             | validate: validate_result
  validate_result --_is_spec_complete--> complete: store_memory
                                       | incomplete: execute_llm_action
                                       | error: handle_error
  store_memory → finalize_result → END;  handle_error → END

The LLM is an oracle `Nat → String` indexed by the number of calls made so
far; the memory store succeeds and recalls `mems` (the claim under study
assumes no step appends an error, so collaborator failures are out of
scope).  State mutations made by the conditional edge functions
(`retry_count += 1`) are kept, as written in the source.
-/

/-- Graph nodes of the specification workflow. -/
inductive Node
  | gatherContext
  | executeLlmAction
  | validateResult
  | storeMemory
  | finalizeResult
  | handleError
deriving DecidableEq, Repr

/-- `WorkflowState` for a specification run (`task`/`employee` are fixed
per run; `context` holds only the recalled memories here; `llmCalls`
indexes the oracle). -/
structure WState where
  results : List String := []
  errors : List String := []
  memories : List String := []
  retryCount : Nat := 0
  currentStep : String := "start"
  finalResponse : String := ""
  llmCalls : Nat := 0
deriving DecidableEq, Repr

/-- The required specification sections checked by `_is_spec_complete`. -/
def requiredSections : List String := ["requirements", "approach", "implementation"]

/-- `_is_spec_complete`'s completeness test on the last result. -/
def specComplete (result : String) : Bool :=
  requiredSections.all (fun sec => strIn sec (pyLower result))

/-- One node execution followed by its outgoing (conditional) edge:
`Sum.inl` is the next node with the updated state, `Sum.inr` is END. -/
def step (oracle : Nat → String) (mems : List String) :
    Node → WState → (Node × WState) ⊕ WState
  | .gatherContext, s =>
    -- _gather_context: recall succeeds, store memories in the context
    .inl (.executeLlmAction,
      { s with memories := mems, currentStep := "context_gathered" })
  | .executeLlmAction, s =>
    -- _execute_llm_action: the LLM call succeeds with the oracle's text
    let s := { s with results := s.results ++ [oracle s.llmCalls],
                      currentStep := "action_executed",
                      llmCalls := s.llmCalls + 1 }
    -- conditional edge _should_retry_action
    if s.errors ≠ [] ∧ s.retryCount < 2 then
      .inl (.gatherContext, { s with retryCount := s.retryCount + 1 })
    else if s.errors ≠ [] then .inl (.handleError, s)
    else .inl (.validateResult, s)
  | .validateResult, s =>
    -- _validate_result (early return when no results, no current_step set)
    let s :=
      if s.results = [] then
        { s with errors := s.errors ++ ["No results to validate"] }
      else
        let s :=
          if (pyStrip (s.results.getLastD "")).length < 50 then
            { s with errors := s.errors ++ ["Result too short, may be incomplete"] }
          else s
        { s with currentStep := "result_validated" }
    -- conditional edge _is_spec_complete
    if s.results = [] then .inl (.executeLlmAction, s)
    else if specComplete (s.results.getLastD "") then .inl (.storeMemory, s)
    else if s.retryCount ≥ 2 then .inl (.handleError, s)
    else .inl (.executeLlmAction, s)
  | .storeMemory, s =>
    -- _store_memory: the store succeeds
    .inl (.finalizeResult, { s with currentStep := "memory_stored" })
  | .finalizeResult, s =>
    let s := if s.results ≠ [] then { s with finalResponse := s.results.getLastD "" }
             else s
    .inr { s with currentStep := "finalized" }
  | .handleError, s =>
    .inr { s with currentStep := "error_handled" }

/-- Drive the graph for at most `fuel` steps; `some` is the final state at
END, `none` means the run had not reached a terminal step yet. -/
def run (oracle : Nat → String) (mems : List String) :
    Nat → Node → WState → Option WState
  | 0, _, _ => none
  | fuel + 1, n, s =>
    match step oracle mems n s with
    | .inr final => some final
    | .inl (n', s') => run oracle mems fuel n' s'

/-- The state a specification run starts from (`execute` builds it fresh). -/
def initialState : WState := {}

end SpecWorkflow

/-! ### File event store (src/ai_kanban/infrastructure/repositories.py) -/

namespace FileEventRepository

/-- One stored event line as read back from the JSONL file: its
`event_type` and the `str(...)` rendering of its `data` dict (which is all
`get_events_for_entity` observes).  `eventId` keeps lines
distinguishable. -/
structure StoredEvent where
  eventType : String
  eventId : String
  dataStr : String
deriving DecidableEq, Repr

/-- The events file: lines in append (chronological) order; `none` is a
line that fails JSON decoding and is skipped. -/
def EventsFile := List (Option StoredEvent)

/-- Python `events[-limit:]` (note `l[-0:]` is the whole list). -/
def pyTakeLast (l : List StoredEvent) (limit : Nat) : List StoredEvent :=
  if limit == 0 then l else l.drop (l.length - limit)

/-- The scan loop shared by both queries: walk the file in line order,
keep lines satisfying `keep`, and `break` as soon as `limit` events are
collected. -/
def collectScan (keep : StoredEvent → Bool) (limit : Nat) :
    List (Option StoredEvent) → List StoredEvent → List StoredEvent
  | [], events => events
  | none :: rest, events => collectScan keep limit rest events
  | some ev :: rest, events =>
    if keep ev then
      let events := events ++ [ev]
      if events.length ≥ limit then events
      else collectScan keep limit rest events
    else collectScan keep limit rest events

/-- `FileEventRepository.get_events_by_type`. -/
def getEventsByType (file : EventsFile) (eventType : String) (limit : Nat) :
    List StoredEvent :=
  pyTakeLast (collectScan (fun ev => ev.eventType == eventType) limit file []) limit

/-- `FileEventRepository.get_events_for_entity` (membership test is
`entity_id in str(event_data.get("data", {}))`). -/
def getEventsForEntity (file : EventsFile) (entityId : String) (limit : Nat) :
    List StoredEvent :=
  pyTakeLast (collectScan (fun ev => strIn entityId ev.dataStr) limit file []) limit

end FileEventRepository

/-! ### Concrete instances used to evaluate the definitions -/

/-- A task notification payload following the documented message schema,
with an unrecognized "Blocked" status. -/
def samplePayload : Json :=
  .obj
    [("id", .str "task-1"),
     ("url", .str "https://notion.so/task-1"),
     ("created_time", .str "2024-01-01T10:00:00.000Z"),
     ("last_edited_time", .str "2024-01-02T10:00:00.000Z"),
     ("properties", .obj
       [("Task", .obj
          [("type", .str "title"),
           ("title", .arr [.obj [("text", .obj [("content", .str "Write spec for X")])]])]),
        ("Status", .obj
          [("type", .str "status"),
           ("status", .obj [("name", .str "Blocked")])]),
        ("Description", .obj
          [("type", .str "rich_text"),
           ("rich_text", .arr [.obj [("text", .obj [("content", .str "A task")])]])]),
        ("AI Employee", .obj
          [("type", .str "rich_text"),
           ("rich_text", .arr [.obj [("text", .obj [("content", .str "Alice")])]])]),
        ("ai processed", .obj
          [("type", .str "checkbox"), ("checkbox", .jbool false)])])]

/-- An employee with no reactions. -/
def alice : Employee :=
  { employeeId := "emp-1", name := "Alice" }

/-- A registry holding only `alice`. -/
def aliceReg : Registry :=
  { byId := [("emp-1", alice)], byName := [("alice", alice)] }

/-- A processable task assigned to Alice whose type she cannot handle. -/
def bugTask : NotionTask :=
  { notionId := "t-2", title := "Fix a bug", status := .toDo,
    createdBy := "Carol", aiEmployee := some "Alice" }

/-- An employee with an assignment rule bound to a registered
"specification" workflow. -/
def bob : Employee :=
  { employeeId := "emp-2", name := "Bob",
    reactions := [{ eventCheck := .assignment, workflowType := "specification",
                    priority := 10 }],
    workflows := [("specification", ⟨"specification"⟩)] }

/-- A processable task assigned to Bob. -/
def specTask : NotionTask :=
  { notionId := "t-3", title := "Write spec for X", status := .toDo,
    createdBy := "Carol", aiEmployee := some "Bob" }

/-- A successful result returned by a workflow execution. -/
def okResult : TaskProcessingResult :=
  { taskId := "t-3", employeeId := "emp-2", workflowType := "specification",
    success := true, results := ["done"], errors := [] }

/-- An LLM answer that names requirements and approach but lacks the
"implementation" section required by `_is_spec_complete` (and is long
enough to pass `_validate_result`). -/
def specResultText : String :=
  "All the spec requirements and the chosen approach are described here."

/-- An LLM oracle that always answers `specResultText`. -/
def specOracle : Nat → String := fun _ => specResultText

/-- Reactions added to an employee: priority 1 first, priority 10 second. -/
def sampleAdds : List EmployeeReaction :=
  [{ eventCheck := .assignment, workflowType := "default", priority := 1 },
   { eventCheck := .contentLength 5, workflowType := "specification", priority := 10 }]

/-- Three stored events of the same kind in append order. -/
def storedE1 : FileEventRepository.StoredEvent :=
  ⟨"TaskProcessedEvent", "ev-1", "employee emp-1 task t-7"⟩

def storedE2 : FileEventRepository.StoredEvent :=
  ⟨"TaskProcessedEvent", "ev-2", "employee emp-1 task t-7"⟩

def storedE3 : FileEventRepository.StoredEvent :=
  ⟨"TaskProcessedEvent", "ev-3", "employee emp-1 task t-7"⟩

/-- An events file holding the three events, oldest first, with one
undecodable line. -/
def sampleFile : FileEventRepository.EventsFile :=
  [some storedE1, some storedE2, none, some storedE3]

/-- A final graph state with results, no errors, and a response. -/
def sampleFinal : WorkflowRun.GraphFinal :=
  { results := ["a fairly long answer"], errors := [],
    finalResponse := "a fairly long answer" }

/-- A task with valid id and title. -/
def roundTripTask : NotionTask :=
  { notionId := "t-9", title := "Document the API", status := .inProgress,
    createdBy := "Carol", description := "desc", content := "old",
    aiEmployee := some "Bob", assignedTo := some "Dave",
    githubUrl := some "https://github.com/x/y", notionUrl := "https://notion.so/t-9",
    lastEditedTime := some ⟨"2024-01-02T10:00:00"⟩,
    createdTime := some ⟨"2024-01-01T10:00:00"⟩,
    eventId := "3f0c", timestamp := ⟨"2024-01-03T10:00:00"⟩,
    metadata := [] }

/-- Two employees for registry scenarios. -/
def dave : Employee := { employeeId := "emp-4", name := "Dave" }

def erin : Employee := { employeeId := "emp-5", name := "Erin" }

/-- Register both, then remove Dave. -/
def sampleOps : List Registry.RegOp :=
  [.register dave, .register erin, .remove "emp-4"]

/-- The registry's structural invariant: id keys index their employees,
the name index is exactly the id index re-keyed by lower-cased employee
name, and both key sets are duplicate-free. -/
structure RegInv (r : Registry) : Prop where
  idKeys : ∀ p ∈ r.byId, p.1 = p.2.employeeId
  nameEq : r.byName = r.byId.map (fun p => (pyLower p.2.name, p.2))
  idNodup : (r.byId.map Prod.fst).Nodup
  nameNodup : (r.byName.map Prod.fst).Nodup

end AIKanban

namespace AIKanban

/-! ## Theorems -/

/-- `TaskStatus(status.value)` recovers the member. -/
theorem TaskStatus.parse_value (s : TaskStatus) : TaskStatus.parse s.value = some s := by
  cases s <;> rfl

/-- The datetime model's round trip is exact. -/
theorem Datetime.fromisoformat_isoformat (d : Datetime) :
    Datetime.fromisoformat d.isoformat = d := rfl

/-- C5: for every task, `to_in_progress` returns true with no sink call
from InProgress, false with no sink call from Done/Cancelled, and from
ToDo makes exactly the one sink call and returns its boolean result;
`to_done` symmetrically (no-op true from Done, sink call exactly from
InProgress, false otherwise); `revert_to_todo` calls the sink
unconditionally. -/
theorem C5_status_transitions (t : NotionTask) (sink : TaskStatusService.SinkCall → Bool) :
    (TaskStatusService.transitionToInProgress t sink =
      match t.status with
      | .inProgress => (true, [])
      | .toDo => (sink ⟨t.notionId, "In Progress"⟩, [⟨t.notionId, "In Progress"⟩])
      | _ => (false, []))
    ∧ (TaskStatusService.transitionToDone t sink =
      match t.status with
      | .done => (true, [])
      | .inProgress => (sink ⟨t.notionId, "Done"⟩, [⟨t.notionId, "Done"⟩])
      | _ => (false, []))
    ∧ TaskStatusService.revertToTodo t sink =
        (sink ⟨t.notionId, "To Do"⟩, [⟨t.notionId, "To Do"⟩]) := by
  rcases t with ⟨nid, ttl, st, c1, c2, c3, c4, c5, c6, c7, c8, c9, c10s, c11, c12⟩
  cases st <;> exact ⟨rfl, rfl, rfl⟩

/-- C7: the workflow engine's `execute` returns a result whose success is
true iff the run accumulated no errors and the derived final response is
nonempty, and converts a raised exception into a failed result carrying
the exception text as sole error instead of propagating it. -/
theorem C7_execute_success_iff (taskId employeeId workflowType : String)
    (outcome : Except String WorkflowRun.GraphFinal) :
    (∀ fs, outcome = .ok fs →
      ((WorkflowRun.executeResult taskId employeeId workflowType outcome).success = true ↔
        (fs.errors = [] ∧ WorkflowRun.derivedResponse fs ≠ "")))
    ∧ (∀ e, outcome = .error e →
      WorkflowRun.executeResult taskId employeeId workflowType outcome =
        { taskId := taskId, employeeId := employeeId, workflowType := workflowType,
          success := false, results := [], errors := [e],
          modelUsed := some "claude-3-5-sonnet-20241022" }) := by
  constructor
  · rintro fs rfl
    simp [WorkflowRun.executeResult, Bool.and_eq_true, List.isEmpty_iff,
      bne_iff_ne]
  · rintro e rfl
    rfl

/-- C7 witness: a concrete successful final state evaluates to a
successful result. -/
theorem C7_execute_success_iff_witness :
    (WorkflowRun.executeResult "t-3" "emp-2" "specification" (.ok sampleFinal)).success
      = true :=
  ((C7_execute_success_iff "t-3" "emp-2" "specification" (.ok sampleFinal)).1
    sampleFinal rfl).mpr ⟨rfl, by decide⟩

/-- C1: FALSIFIED BY THE CODE.  `map_to_domain` never returns a task: the
extraction phase computes the keyword arguments (including the correct
"unrecognized status defaults to To Do" extraction), but the final
`NotionTask(..., ai_processed=...)` call raises `TypeError` on every
payload because the dataclass has no `ai_processed` field.  Evaluated here
on a schema-conforming payload with status "Blocked". -/
theorem C1_mapper_raises_type_error :
    NotionTaskMapper.mapToDomain samplePayload =
      .error (.typeError
        "NotionTask.__init__() got an unexpected keyword argument 'ai_processed'")
    ∧ (NotionTaskMapper.mapToDomainKwargs samplePayload).status = TaskStatus.toDo
    ∧ (NotionTaskMapper.mapToDomainKwargs samplePayload).title = "Write spec for X"
    ∧ (NotionTaskMapper.mapToDomainKwargs samplePayload).aiEmployee = some "Alice" := by
  refine ⟨rfl, ?_, ?_, ?_⟩ <;> rfl

/-- C9: FALSIFIED BY THE CODE.  Both queries `break` as soon as `limit`
matching lines are collected while scanning the file from its start, so
they return the oldest `limit` matching events in oldest-first order; the
trailing `events[-limit:]` (meant to keep the most recent) is dead.  With
three matching events appended in order e1, e2, e3 and limit 2 the result
is `[e1, e2]`, not the most-recent-first `[e3, e2]`; with limit 0 the
query even returns one event. -/
theorem C9_queries_not_most_recent_first :
    FileEventRepository.getEventsByType sampleFile "TaskProcessedEvent" 2
      = [storedE1, storedE2]
    ∧ [storedE1, storedE2] ≠ [storedE3, storedE2]
    ∧ FileEventRepository.getEventsForEntity sampleFile "t-7" 2
      = [storedE1, storedE2]
    ∧ (FileEventRepository.getEventsByType sampleFile "TaskProcessedEvent" 0).length = 1 := by
  refine ⟨rfl, by decide, ?_, rfl⟩
  rfl

/-- C2: FALSIFIED BY THE CODE.  When the task is processable and the
assigned employee is found but cannot handle it, `validate_assignment`
does not return false: while building the diagnostic it calls
`_analyze_capability_failure`, which reads the nonexistent
`employee.reactions` attribute and raises `AttributeError` — the
diagnostic changes control flow. -/
theorem C2_validate_raises_in_diagnostic (reg : Registry) (t : NotionTask)
    (e : Employee) (h1 : t.canBeProcessed = true)
    (h2 : TaskAssignmentService.findAssignedEmployee reg t = some e)
    (h3 : TaskAssignmentService.canEmployeeHandleTask e t = false) :
    TaskAssignmentService.validateAssignment reg t =
      .error (.attributeError "reactions") := by
  unfold TaskAssignmentService.validateAssignment
  simp [h1, h2, h3, TaskAssignmentService.analyzeCapabilityFailure]

/-- C2 witness: a registry holding Alice (active, no reactions) and a
processable task assigned to her make `validate_assignment` raise. -/
theorem C2_validate_raises_in_diagnostic_witness :
    TaskAssignmentService.validateAssignment aliceReg bugTask =
      .error (.attributeError "reactions") :=
  C2_validate_raises_in_diagnostic aliceReg bugTask alice (by decide) (by rfl)
    (by decide)

/-- C4: `process_task` raises exactly when the task is not assigned to
this employee, `can_handle_task_type` is false, or no workflow resolves;
on every completed call it returns a result, bumps the processed counter
by exactly 1, bumps the success counter iff the result is successful, and
appends exactly one domain event: `TaskProcessedEvent` when the workflow
returned, `TaskProcessingFailedEvent` carrying the exception text when the
workflow raised (in which case a failed result is returned rather than the
exception propagating). -/
theorem C4_process_task_contract (e : Employee) (t : NotionTask)
    (outcome : Employee.ExecOutcome) :
    ((∃ x, e.processTask t outcome = .ok x) ↔
      (t.isAssignedToEmployee e.name = true ∧ e.canHandleTaskType t = true ∧
        e.getApplicableWorkflow t ≠ none))
    ∧ (∀ r e', e.processTask t outcome = .ok (r, e') →
        e'.tasksProcessed = e.tasksProcessed + 1
        ∧ e'.successCount = e.successCount + (if r.success then 1 else 0)
        ∧ ∃ ev, e'.domainEvents = e.domainEvents ++ [ev]
          ∧ (∀ res, outcome = .ok res →
              r = res ∧ ∃ s, ev = .taskProcessed e.employeeId t.notionId s)
          ∧ (∀ msg, outcome = .error msg →
              ev = .taskProcessingFailed e.employeeId t.notionId msg
              ∧ r.success = false ∧ r.errors = [msg] ∧ r.results = [])) := by
  by_cases h1 : t.isAssignedToEmployee e.name
  · by_cases h2 : e.canHandleTaskType t
    · cases hw : e.getApplicableWorkflow t with
      | none => simp [Employee.processTask, h1, h2, hw]
      | some wf =>
        cases outcome with
        | ok res =>
          constructor
          · simp [Employee.processTask, h1, h2, hw]
          · rintro r e' hok
            rw [Employee.processTask] at hok
            simp [h1, h2, hw] at hok
            obtain ⟨hr, he'⟩ := hok
            subst hr
            refine ⟨by rw [← he'], by rw [← he'], ?_⟩
            refine ⟨_, by rw [← he'], ?_, by rintro msg ⟨⟩⟩
            rintro res' hres
            injection hres with hres
            exact ⟨hres, _, rfl⟩
        | error msg =>
          constructor
          · simp [Employee.processTask, h1, h2, hw]
          · rintro r e' hok
            rw [Employee.processTask] at hok
            simp [h1, h2, hw] at hok
            obtain ⟨hr, he'⟩ := hok
            refine ⟨by rw [← he'], ?_, ?_⟩
            · rw [← he', ← hr]
              simp
            · refine ⟨_, by rw [← he'], by rintro res ⟨⟩, ?_⟩
              rintro msg' hmsg
              injection hmsg with hmsg
              subst hmsg
              rw [← hr]
              exact ⟨rfl, rfl, rfl, rfl⟩
    · simp [Employee.processTask, h1, h2]
  · simp [Employee.processTask, h1]

/-- C4 witness: Bob processes a task assigned to him through his
registered specification workflow; one call with a successful outcome
bumps both counters and appends one `TaskProcessedEvent`. -/
theorem C4_process_task_contract_witness :
    (∃ x, bob.processTask specTask (.ok okResult) = .ok x)
    ∧ (∀ r e', bob.processTask specTask (.ok okResult) = .ok (r, e') →
        e'.tasksProcessed = bob.tasksProcessed + 1
        ∧ e'.successCount = bob.successCount + (if r.success then 1 else 0)
        ∧ ∃ ev, e'.domainEvents = bob.domainEvents ++ [ev]
          ∧ (∀ res, (.ok okResult : Employee.ExecOutcome) = .ok res →
              r = res ∧ ∃ s, ev = .taskProcessed bob.employeeId specTask.notionId s)
          ∧ (∀ msg, (.ok okResult : Employee.ExecOutcome) = .error msg →
              ev = .taskProcessingFailed bob.employeeId specTask.notionId msg
              ∧ r.success = false ∧ r.errors = [msg] ∧ r.results = [])) :=
  ⟨(C4_process_task_contract bob specTask (.ok okResult)).1.mpr
    ⟨by decide, by decide, by decide⟩,
   (C4_process_task_contract bob specTask (.ok okResult)).2⟩

/-- C8: `with_content` serializes the task to its dictionary, parses the
status string and ISO timestamp strings back, and reconstructs a new task
that equals the original in every field except `content`, which becomes
the new content; the original is untouched (the model is pure and the
dataclass frozen). -/
theorem C8_with_content_round_trip (t : NotionTask) (c : String)
    (h1 : t.notionId ≠ "") (h2 : pyStrip t.title ≠ "") :
    t.withContent c = .ok { t with content := c } := by
  unfold NotionTask.withContent NotionTask.toDict NotionTask.mkChecked
  simp [TaskStatus.parse_value, Datetime.fromisoformat_isoformat,
    Option.map_map, Function.comp, Datetime.isoformat, Datetime.fromisoformat,
    h1, h2]
  constructor
  · cases t.lastEditedTime <;> rfl
  · cases t.createdTime <;> rfl

/-- C8 witness: a fully populated concrete task round-trips. -/
theorem C8_with_content_round_trip_witness :
    roundTripTask.withContent "new content" =
      .ok { roundTripTask with content := "new content" } :=
  C8_with_content_round_trip roundTripTask "new content" (by decide) (by decide)

/-- Stability of the rule sort: reactions of one priority keep their
relative order through `insertionSort priorityGe`. -/
theorem filter_insertionSort_priority (p : Int) (l : List EmployeeReaction) :
    (List.insertionSort Employee.priorityGe l).filter (fun r => r.priority == p)
      = l.filter (fun r => r.priority == p) := by
  have hpair : (l.filter (fun r => r.priority == p)).Pairwise Employee.priorityGe := by
    refine List.pairwise_of_forall_mem_list ?_
    intro a ha b hb
    have ha' := (List.mem_filter.mp ha).2
    have hb' := (List.mem_filter.mp hb).2
    rw [beq_iff_eq] at ha' hb'
    unfold Employee.priorityGe
    rw [ha', hb']
  have hsub : List.Sublist (l.filter (fun r => r.priority == p))
      ((List.insertionSort Employee.priorityGe l).filter (fun r => r.priority == p)) := by
    have h1 : List.Sublist (l.filter (fun r => r.priority == p))
        (List.insertionSort Employee.priorityGe l) :=
      List.sublist_insertionSort hpair (List.filter_sublist l)
    have h2 := h1.filter (fun r => r.priority == p)
    rwa [List.filter_eq_self.mpr (fun a ha => (List.mem_filter.mp ha).2)] at h2
  have hlen : ((List.insertionSort Employee.priorityGe l).filter
      (fun r => r.priority == p)).length = (l.filter (fun r => r.priority == p)).length :=
    ((List.perm_insertionSort Employee.priorityGe l).filter _).length_eq
  exact (hsub.eq_of_length hlen.symm).symm

/-- Folding `add_reaction` over any sequence of rules keeps the rule list
sorted by priority descending and, per priority, in insertion order. -/
theorem foldl_addReaction_sorted_stable (adds : List EmployeeReaction) :
    ∀ e0 : Employee, e0.reactions.Pairwise Employee.priorityGe →
      ((adds.foldl (fun acc r =>
          acc.addReaction r.eventCheck r.workflowType r.priority) e0).reactions.Pairwise
        Employee.priorityGe)
      ∧ ∀ p : Int,
          ((adds.foldl (fun acc r =>
              acc.addReaction r.eventCheck r.workflowType r.priority) e0).reactions.filter
            (fun r => r.priority == p))
          = e0.reactions.filter (fun r => r.priority == p)
            ++ adds.filter (fun r => r.priority == p) := by
  induction adds with
  | nil => exact fun e0 h0 => ⟨h0, fun p => by simp⟩
  | cons x rest ih =>
    intro e0 _
    have hstep :
        (e0.addReaction x.eventCheck x.workflowType x.priority).reactions
          = List.insertionSort Employee.priorityGe (e0.reactions ++ [x]) := rfl
    have hsorted :
        (e0.addReaction x.eventCheck x.workflowType x.priority).reactions.Pairwise
          Employee.priorityGe := by
      rw [hstep]
      exact List.sorted_insertionSort Employee.priorityGe _
    obtain ⟨ih1, ih2⟩ := ih (e0.addReaction x.eventCheck x.workflowType x.priority) hsorted
    refine ⟨ih1, fun p => ?_⟩
    rw [List.foldl_cons] at *
    rw [ih2 p, hstep, filter_insertionSort_priority, List.filter_append]
    show e0.reactions.filter _ ++ [x].filter _ ++ rest.filter _ = _
    rw [List.append_assoc]
    congr 1
    show [x].filter _ ++ rest.filter _ = (x :: rest).filter _
    rw [show (x :: rest) = [x] ++ rest from rfl, List.filter_append]

/-- `get_applicable_workflow` returns the workflow registered for the
first matching rule whose workflow id has a registered workflow (skipping
matching rules without one), and `none` when no such rule exists. -/
theorem getApplicableWorkflow_eq_find (e : Employee) (t : NotionTask) :
    e.getApplicableWorkflow t =
      match e.reactions.find? (fun r => r.eventCheck.matches t e.name
          && (e.workflows.lookup r.workflowType).isSome) with
      | some r => e.workflows.lookup r.workflowType
      | none => none := by
  show Employee.getApplicableWorkflow.go e t e.reactions = _
  induction e.reactions with
  | nil => rfl
  | cons r rest ih =>
    rw [Employee.getApplicableWorkflow.go]
    by_cases hm : r.eventCheck.matches t e.name
    · cases hl : e.workflows.lookup r.workflowType with
      | some w => simp [hm, hl, List.find?_cons]
      | none => simp [hm, hl, List.find?_cons, ih]
    · simp [hm, List.find?_cons, ih]

/-- C6: after any sequence of `add_rule` calls the rule list is ordered by
priority descending with ties in insertion order (it is pairwise
`priorityGe`-sorted and, restricted to any one priority, equals the
insertion sequence restricted to that priority), and `resolve_workflow`
returns the workflow of the first matching rule in that order whose
workflow id has a registered workflow, skipping matching rules without
one, and `none` if no such rule exists. -/
theorem C6_rules_sorted_and_resolution (e0 : Employee) (adds : List EmployeeReaction)
    (e : Employee) (h0 : e0.reactions = [])
    (he : e = adds.foldl (fun acc r =>
        acc.addReaction r.eventCheck r.workflowType r.priority) e0)
    (t : NotionTask) :
    e.reactions.Pairwise Employee.priorityGe
    ∧ (∀ p : Int, e.reactions.filter (fun r => r.priority == p)
        = adds.filter (fun r => r.priority == p))
    ∧ (e.getApplicableWorkflow t =
        match e.reactions.find? (fun r => r.eventCheck.matches t e.name
            && (e.workflows.lookup r.workflowType).isSome) with
        | some r => e.workflows.lookup r.workflowType
        | none => none) := by
  obtain ⟨hs, hf⟩ := foldl_addReaction_sorted_stable adds e0 (by rw [h0]; exact .nil)
  subst he
  refine ⟨hs, fun p => ?_, getApplicableWorkflow_eq_find _ t⟩
  rw [hf p, h0]
  rfl

/-- C6 witness: rules of priorities 1 then 10 added to a rule-less
employee come out priority-sorted with the resolution equation holding. -/
theorem C6_rules_sorted_and_resolution_witness :
    (sampleAdds.foldl (fun acc r =>
        acc.addReaction r.eventCheck r.workflowType r.priority) alice).reactions.Pairwise
      Employee.priorityGe
    ∧ (∀ p : Int, (sampleAdds.foldl (fun acc r =>
          acc.addReaction r.eventCheck r.workflowType r.priority) alice).reactions.filter
        (fun r => r.priority == p) = sampleAdds.filter (fun r => r.priority == p))
    ∧ ((sampleAdds.foldl (fun acc r =>
          acc.addReaction r.eventCheck r.workflowType r.priority) alice).getApplicableWorkflow
        bugTask =
        match (sampleAdds.foldl (fun acc r =>
            acc.addReaction r.eventCheck r.workflowType r.priority) alice).reactions.find?
          (fun r => r.eventCheck.matches bugTask (sampleAdds.foldl (fun acc r =>
            acc.addReaction r.eventCheck r.workflowType r.priority) alice).name
            && ((sampleAdds.foldl (fun acc r =>
              acc.addReaction r.eventCheck r.workflowType r.priority) alice).workflows.lookup
              r.workflowType).isSome) with
        | some r => (sampleAdds.foldl (fun acc r =>
            acc.addReaction r.eventCheck r.workflowType r.priority) alice).workflows.lookup
            r.workflowType
        | none => none) :=
  C6_rules_sorted_and_resolution alice sampleAdds _ rfl rfl bugTask

/-! Association-list facts used for the registry. -/

theorem lookup_cons (k k' : String) (v : Employee)
    (rest : List (String × Employee)) :
    ((k', v) :: rest).lookup k = if k == k' then some v else rest.lookup k := by
  by_cases h : k == k' <;> simp [List.lookup, h]

theorem lookup_eq_none_iff (l : List (String × Employee)) (k : String) :
    l.lookup k = none ↔ ∀ p ∈ l, p.1 ≠ k := by
  induction l with
  | nil => simp
  | cons q rest ih =>
    rcases q with ⟨k', v⟩
    rw [lookup_cons]
    by_cases hk : k == k'
    · rw [if_pos hk]
      simp only [beq_iff_eq] at hk
      subst hk
      simp
    · rw [if_neg hk, ih]
      simp only [beq_iff_eq] at hk
      simp only [List.mem_cons]
      constructor
      · rintro h p (rfl | hp)
        · exact fun hc => hk hc.symm
        · exact h p hp
      · intro h p hp
        exact h p (Or.inr hp)

theorem lookup_isSome_iff (l : List (String × Employee)) (k : String) :
    (l.lookup k).isSome = true ↔ ∃ p ∈ l, p.1 = k := by
  rw [Option.isSome_iff_ne_none, Ne, lookup_eq_none_iff]
  push_neg
  simp

theorem mem_of_lookup_eq_some {l : List (String × Employee)} {k : String}
    {v : Employee} (h : l.lookup k = some v) : (k, v) ∈ l := by
  induction l with
  | nil => simp [List.lookup] at h
  | cons q rest ih =>
    rcases q with ⟨k', v'⟩
    rw [lookup_cons] at h
    by_cases hk : k == k'
    · rw [if_pos hk] at h
      injection h with h
      subst h
      rw [eq_of_beq hk]
      exact List.mem_cons_self _ _
    · rw [if_neg hk] at h
      exact List.mem_cons_of_mem _ (ih h)

theorem lookup_eq_some_of_mem {l : List (String × Employee)} {k : String}
    {v : Employee} (hnd : (l.map Prod.fst).Nodup) (hm : (k, v) ∈ l) :
    l.lookup k = some v := by
  induction l with
  | nil => simp at hm
  | cons q rest ih =>
    rcases q with ⟨k', v'⟩
    rw [List.map_cons, List.nodup_cons] at hnd
    rw [lookup_cons]
    rcases List.mem_cons.mp hm with heq | hm'
    · injection heq with h1 h2
      subst h1; subst h2
      simp
    · have hne : ¬ (k == k') = true := by
        simp only [beq_iff_eq]
        rintro rfl
        exact hnd.1 (List.mem_map.mpr ⟨(k, v), hm', rfl⟩)
      rw [if_neg hne]
      exact ih hnd.2 hm'

theorem lookup_eraseKey_self (l : List (String × Employee)) (k : String)
    (hnd : (l.map Prod.fst).Nodup) :
    (Registry.eraseKey l k).lookup k = none := by
  induction l with
  | nil => rfl
  | cons q rest ih =>
    rcases q with ⟨k', v'⟩
    rw [List.map_cons, List.nodup_cons] at hnd
    unfold Registry.eraseKey at *
    by_cases hk : k' == k
    · rw [List.eraseP_cons]
      simp only [hk, cond_true]
      rw [lookup_eq_none_iff]
      intro p hp
      rintro rfl
      exact hnd.1 (List.mem_map.mpr ⟨p, hp, (eq_of_beq hk).symm⟩)
    · have hk' : (k' == k) = false := by simpa using hk
      rw [List.eraseP_cons]
      simp only [hk', cond_false]
      have hne : ¬ (k == k') = true := by
        simp only [beq_iff_eq]
        intro hc
        rw [Bool.not_eq_true, beq_eq_false_iff_ne] at hk
        exact hk hc.symm
      rw [lookup_cons, if_neg hne]
      exact ih hnd.2

theorem eraseP_congr_mem {l : List (String × Employee)}
    {p q : String × Employee → Bool} (h : ∀ a ∈ l, p a = q a) :
    l.eraseP p = l.eraseP q := by
  induction l with
  | nil => rfl
  | cons a rest ih =>
    rw [List.eraseP_cons, List.eraseP_cons, h a (List.mem_cons_self a rest),
      ih (fun b hb => h b (List.mem_cons_of_mem a hb))]

/-- Registering a fresh employee preserves the registry invariant;
registering a duplicate raises without mutating; removing deletes the
unique entry from both indexes. -/
theorem regInv_applyOp (r : Registry) (op : Registry.RegOp) (h : RegInv r) :
    RegInv (r.applyOp op) := by
  cases op with
  | register e =>
    have hgoal : r.applyOp (.register e) =
        match r.registerEmployee e with
        | .ok r' => r'
        | .error _ => r := rfl
    rw [hgoal]
    unfold Registry.registerEmployee
    by_cases h1 : (r.byId.lookup e.employeeId).isSome
    · simp [h1]; exact h
    · by_cases h2 : (r.byName.lookup (pyLower e.name)).isSome
      · simp [h1, h2]; exact h
      · simp only [h1, h2, Bool.false_eq_true, if_false, ite_false]
        constructor
        · intro p hp
          rcases List.mem_append.mp hp with hp' | hp'
          · exact h.idKeys p hp'
          · rcases List.mem_singleton.mp hp' with rfl; rfl
        · rw [List.map_append, h.nameEq]; rfl
        · rw [List.map_append, List.nodup_append]
          refine ⟨h.idNodup, List.nodup_singleton _, ?_⟩
          intro a ha hb
          rcases List.mem_singleton.mp hb with rfl
          rcases List.mem_map.mp ha with ⟨p, hp, hpa⟩
          exact absurd (lookup_isSome_iff r.byId e.employeeId |>.mpr
            ⟨p, hp, hpa⟩) h1
        · rw [List.map_append, List.nodup_append]
          refine ⟨h.nameNodup, List.nodup_singleton _, ?_⟩
          intro a ha hb
          rcases List.mem_singleton.mp hb with rfl
          rcases List.mem_map.mp ha with ⟨p, hp, hpa⟩
          exact absurd (lookup_isSome_iff r.byName (pyLower e.name) |>.mpr
            ⟨p, hp, hpa⟩) h2
  | remove employeeId =>
    have hgoal : r.applyOp (.remove employeeId) = (r.removeEmployee employeeId).2 :=
      rfl
    rw [hgoal]
    unfold Registry.removeEmployee
    cases hl : r.byId.lookup employeeId with
    | none => exact h
    | some e0 =>
      have hmem : (employeeId, e0) ∈ r.byId := mem_of_lookup_eq_some hl
      constructor
      · intro p hp
        exact h.idKeys p ((List.eraseP_sublist _).subset hp)
      · show Registry.eraseKey r.byName (pyLower e0.name)
          = (Registry.eraseKey r.byId employeeId).map
              (fun p => (pyLower p.2.name, p.2))
        unfold Registry.eraseKey
        rw [h.nameEq, List.eraseP_map]
        congr 1
        refine eraseP_congr_mem ?_
        intro p hp
        show (pyLower p.2.name == pyLower e0.name) = (p.1 == employeeId)
        have hinj_id := List.inj_on_of_nodup_map h.idNodup
        have hname : (r.byId.map
            (fun p => (pyLower p.2.name, p.2)) |>.map Prod.fst).Nodup := by
          rw [← h.nameEq]; exact h.nameNodup
        rw [List.map_map] at hname
        have hinj_name := List.inj_on_of_nodup_map hname
        by_cases hp1 : p.1 = employeeId
        · have : p = (employeeId, e0) := hinj_id hp hmem hp1
          rw [this]
          simp
        · have hne : pyLower p.2.name ≠ pyLower e0.name := by
            intro hc
            exact hp1 (congrArg Prod.fst (hinj_name hp hmem hc))
          simp [hne, hp1]
      · refine h.idNodup.sublist ?_
        exact ((List.eraseP_sublist _).map Prod.fst)
      · refine h.nameNodup.sublist ?_
        exact ((List.eraseP_sublist _).map Prod.fst)

/-- The invariant holds for every reachable registry. -/
theorem regInv_applyOps (ops : List Registry.RegOp) : RegInv (Registry.applyOps ops) := by
  suffices h : ∀ r, RegInv r → RegInv (ops.foldl Registry.applyOp r) by
    refine h {} ⟨?_, rfl, ?_, ?_⟩ <;> simp
  induction ops with
  | nil => exact fun r hr => hr
  | cons op rest ih => exact fun r hr => ih _ (regInv_applyOp r op hr)

/-- C10: for every sequence of register/remove operations from the empty
registry, a duplicate id or a case-insensitively duplicate name makes
registration raise and leaves the registry untouched; the id index and the
name index always hold exactly the same employees; name lookup is
case-insensitive; and remove deletes the employee's entry from both
indexes. -/
theorem C10_registry_uniqueness_and_indexes (ops : List Registry.RegOp)
    (r : Registry) (hr : r = Registry.applyOps ops) :
    (r.byName.map Prod.snd = r.byId.map Prod.snd)
    ∧ (∀ e : Employee,
        ((∃ err, r.registerEmployee e = .error err) ↔
          ((r.byId.lookup e.employeeId).isSome = true
            ∨ ∃ p ∈ r.byId, pyLower p.2.name = pyLower e.name))
        ∧ ((∃ err, r.registerEmployee e = .error err) →
            r.applyOp (.register e) = r))
    ∧ (∀ p ∈ r.byId, ∀ s : String, pyLower s = pyLower p.2.name →
        r.getEmployeeByName s = some p.2)
    ∧ (∀ employeeId e, r.byId.lookup employeeId = some e →
        (r.removeEmployee employeeId).2.byId.lookup employeeId = none
        ∧ (r.removeEmployee employeeId).2.byName.lookup (pyLower e.name) = none) := by
  subst hr
  have h := regInv_applyOps ops
  set r := Registry.applyOps ops with hr
  refine ⟨?_, ?_, ?_, ?_⟩
  · rw [h.nameEq, List.map_map]; rfl
  · intro e
    constructor
    · unfold Registry.registerEmployee
      by_cases h1 : (r.byId.lookup e.employeeId).isSome
      · simp [h1]
      · by_cases h2 : (r.byName.lookup (pyLower e.name)).isSome
        · simp only [h1, h2]
          simp only [Bool.false_eq_true, if_false, ite_true, ite_false]
          constructor
          · intro _
            right
            rcases (lookup_isSome_iff _ _).mp h2 with ⟨q, hq, hq1⟩
            rw [h.nameEq] at hq
            rcases List.mem_map.mp hq with ⟨p, hp, rfl⟩
            exact ⟨p, hp, hq1⟩
          · exact fun _ => ⟨_, rfl⟩
        · simp only [h1, h2, Bool.false_eq_true, if_false, ite_false]
          constructor
          · rintro ⟨err, herr⟩; cases herr
          · rintro (hc | ⟨p, hp, hc⟩)
            · exact hc.elim
            · refine absurd ((lookup_isSome_iff _ _).mpr ?_) h2
              refine ⟨(pyLower p.2.name, p.2), ?_, hc⟩
              rw [h.nameEq]
              exact List.mem_map.mpr ⟨p, hp, rfl⟩
    · rintro ⟨err, herr⟩
      have hgoal : r.applyOp (.register e) =
          match r.registerEmployee e with
          | .ok r' => r'
          | .error _ => r := rfl
      rw [hgoal, herr]
  · intro p hp s hs
    unfold Registry.getEmployeeByName
    rw [hs]
    refine lookup_eq_some_of_mem h.nameNodup ?_
    rw [h.nameEq]
    exact List.mem_map.mpr ⟨p, hp, rfl⟩
  · intro employeeId e hl
    unfold Registry.removeEmployee
    rw [hl]
    refine ⟨lookup_eraseKey_self _ _ h.idNodup, ?_⟩
    have hname : (r.byName.map Prod.fst).Nodup := h.nameNodup
    exact lookup_eraseKey_self _ _ hname

/-- C10 witness: after registering Dave and Erin and removing Dave, both
indexes hold exactly Erin, and looking her up by the upper-cased name
succeeds. -/
theorem C10_registry_uniqueness_and_indexes_witness :
    ((Registry.applyOps sampleOps).byName.map Prod.snd
      = (Registry.applyOps sampleOps).byId.map Prod.snd)
    ∧ (Registry.applyOps sampleOps).getEmployeeByName "ERIN" = some erin := by
  refine ⟨(C10_registry_uniqueness_and_indexes sampleOps _ rfl).1, ?_⟩
  refine (C10_registry_uniqueness_and_indexes sampleOps _ rfl).2.2.1
    ("emp-5", erin) ?_ "ERIN" ?_
  · rw [show (Registry.applyOps sampleOps).byId = [("emp-5", erin)] from rfl]
    exact List.mem_singleton.mpr rfl
  · rfl

/-! Step lemmas for the specification workflow graph. -/

theorem step_gather (oracle : Nat → String) (mems : List String)
    (s : SpecWorkflow.WState) :
    SpecWorkflow.step oracle mems .gatherContext s =
      .inl (.executeLlmAction,
        { s with memories := mems, currentStep := "context_gathered" }) := rfl

/-- With no accumulated errors, `_should_retry_action` routes the executed
action to validation without touching the retry counter. -/
theorem step_execute_no_errors (oracle : Nat → String) (mems : List String)
    (s : SpecWorkflow.WState) (herr : s.errors = []) :
    SpecWorkflow.step oracle mems .executeLlmAction s =
      .inl (.validateResult,
        { s with results := s.results ++ [oracle s.llmCalls],
                 currentStep := "action_executed",
                 llmCalls := s.llmCalls + 1 }) := by
  simp [SpecWorkflow.step, herr]

/-- When the last result passes the length check but is incomplete and the
retry counter is 0, `_is_spec_complete` loops back to execute-action and
nothing is mutated but the step name: the retry counter is not
incremented. -/
theorem step_validate_incomplete (oracle : Nat → String) (mems : List String)
    (s : SpecWorkflow.WState) (hne : s.results ≠ [])
    (h50 : 50 ≤ (pyStrip (s.results.getLastD "")).length)
    (hcomp : SpecWorkflow.specComplete (s.results.getLastD "") = false)
    (hretry : s.retryCount = 0) :
    SpecWorkflow.step oracle mems .validateResult s =
      .inl (.executeLlmAction, { s with currentStep := "result_validated" }) := by
  rw [List.getLastD_eq_getLast?] at h50 hcomp
  simp [SpecWorkflow.step, hne, Nat.not_lt.mpr h50, hcomp, hretry]

/-- C3: FALSIFIED BY THE CODE.  In the specification workflow, when every
execute-action result is long enough not to trigger an error but lacks a
required section (and no step appends an error), the completeness branch
loops back to execute-action WITHOUT incrementing the retry counter
(`_is_spec_complete` only reads `retry_count`; the only increment sits in
`_should_retry_action`, unreachable while `errors` is empty), so the
graph-internal run never routes to handle-error and never reaches a
terminal step, for any step budget. -/
theorem C3_spec_incomplete_loop_never_terminates (oracle : Nat → String)
    (mems : List String)
    (h : ∀ k, 50 ≤ (pyStrip (oracle k)).length
      ∧ SpecWorkflow.specComplete (oracle k) = false) :
    ∀ fuel, SpecWorkflow.run oracle mems fuel .gatherContext
      SpecWorkflow.initialState = none := by
  suffices hgen : ∀ fuel (n : SpecWorkflow.Node) (s : SpecWorkflow.WState),
      s.errors = [] → s.retryCount = 0 →
      (n = .gatherContext ∨ n = .executeLlmAction ∨
        (n = .validateResult ∧ s.results ≠ []
          ∧ ∃ k, s.results.getLastD "" = oracle k)) →
      SpecWorkflow.run oracle mems fuel n s = none by
    intro fuel
    exact hgen fuel _ _ rfl rfl (Or.inl rfl)
  intro fuel
  induction fuel with
  | zero => intro n s _ _ _; rfl
  | succ fuel ih =>
    intro n s herr hretry hnode
    rcases hnode with rfl | rfl | ⟨rfl, hne, k, hlast⟩
    · rw [SpecWorkflow.run, step_gather]
      exact ih _ _ herr hretry (Or.inr (Or.inl rfl))
    · rw [SpecWorkflow.run, step_execute_no_errors oracle mems s herr]
      refine ih .validateResult _ herr hretry
        (Or.inr (Or.inr ⟨rfl, ?_, ⟨s.llmCalls, ?_⟩⟩)) <;> simp
    · rw [SpecWorkflow.run,
        step_validate_incomplete oracle mems s hne
          (by rw [hlast]; exact (h k).1) (by rw [hlast]; exact (h k).2) hretry]
      exact ih _ _ herr hretry (Or.inr (Or.inl rfl))

/-- C3 witness: with the concrete incomplete-but-long answer the run makes
no terminal step in 12 steps (nor in any other number). -/
theorem C3_spec_incomplete_loop_never_terminates_witness :
    SpecWorkflow.run specOracle [] 12 .gatherContext SpecWorkflow.initialState
      = none := by
  have h1 : 50 ≤ (pyStrip specResultText).length := by decide
  have h2 : SpecWorkflow.specComplete specResultText = false := by decide
  exact C3_spec_incomplete_loop_never_terminates specOracle []
    (fun _ => ⟨h1, h2⟩) 12

end AIKanban
